import Mathlib

/-
Verification development for the XMP/DocInfo metadata synchronization engine
(src/pikepdf/models/metadata.py).  The Python module is shallowly embedded:
strings are Lean `String`s (lists of characters), Python `datetime` values are
the `PDT` structure below, the ElementTree XML documents are the `XElem` tree,
and Python exceptions are an explicit `MErr` error type threaded through
`Except`.  Each definition is translated from the source file; modelling
choices that narrow stdlib behaviour (strptime on zero-padded fixed-width
strings, ElementTree serialization) are noted in the doc comment of the
definition concerned.
-/

/-- The apostrophe character (ASCII 39), used by the pdfmark date grammar to
bracket the timezone digits. -/
def apos : Char := Char.ofNat 39

/-- The NUL character, stripped from scalar metadata values on write. -/
def nulChar : Char := Char.ofNat 0

/-- Embedding of a Python `datetime`: calendar fields plus an optional
timezone offset in whole minutes (`none` = zone-naive).  Sub-minute offsets
and microseconds do not occur in the PDF date grammar and are not modelled. -/
structure PDT where
  year : Nat
  month : Nat
  day : Nat
  hour : Nat
  minute : Nat
  second : Nat
  tz : Option Int
deriving DecidableEq, Repr

/-- Leap-year rule of the proleptic Gregorian calendar (as used by
Python `datetime`). -/
def isLeap (y : Nat) : Bool := (y % 4 = 0 && y % 100 != 0) || y % 400 = 0

/-- Number of days of month `mo` in year `y` (Python `calendar.monthrange`). -/
def daysInMonth (y mo : Nat) : Nat :=
  if mo = 2 then (if isLeap y then 29 else 28)
  else if mo = 4 ∨ mo = 6 ∨ mo = 9 ∨ mo = 11 then 30
  else 31

/-- Validity of the date/time fields, exactly the range checks Python's
`datetime` constructor performs. -/
def dtOk (y mo d h mi s : Nat) : Prop :=
  1 ≤ y ∧ y ≤ 9999 ∧ 1 ≤ mo ∧ mo ≤ 12 ∧ 1 ≤ d ∧ d ≤ daysInMonth y mo ∧
  h ≤ 23 ∧ mi ≤ 59 ∧ s ≤ 59

instance (y mo d h mi s : Nat) : Decidable (dtOk y mo d h mi s) := by
  unfold dtOk; infer_instance

/-- Timezone-offset validity: Python's `timezone` accepts offsets strictly
between -24h and +24h. -/
def tzOk : Option Int → Prop
  | none => True
  | some off => off.natAbs < 1440

instance (t : Option Int) : Decidable (tzOk t) := by
  cases t <;> unfold tzOk <;> infer_instance

/-- A `PDT` that Python's `datetime`/`timezone` constructors would accept. -/
def ValidPDT (d : PDT) : Prop :=
  dtOk d.year d.month d.day d.hour d.minute d.second ∧ tzOk d.tz

instance (d : PDT) : Decidable (ValidPDT d) := by
  unfold ValidPDT; infer_instance

/-- Two-digit zero-padded decimal rendering (strftime `%m`, `%d`, `%H`, `%M`,
`%S` and the two halves of `%z`), for values below 100. -/
def pad2 (n : Nat) : List Char := [Nat.digitChar (n / 10), Nat.digitChar (n % 10)]

/-- Four-digit zero-padded decimal rendering of the year (strftime `%Y` for
four-digit years, the platform-independent regime). -/
def pad4 (n : Nat) : List Char :=
  [Nat.digitChar (n / 1000), Nat.digitChar (n / 100 % 10),
   Nat.digitChar (n / 10 % 10), Nat.digitChar (n % 10)]

/-- Character-list body of `encode_pdf_date`: strftime `%Y%m%d%H%M%S`
followed by the timezone rendered as in the source (sign, hours, apostrophe,
minutes, apostrophe; `+00'00'` when the datetime carries no zone, the
Ghostscript compatibility accommodation). -/
def encodeChars (d : PDT) : List Char :=
  pad4 d.year ++ pad2 d.month ++ pad2 d.day ++ pad2 d.hour ++
  pad2 d.minute ++ pad2 d.second ++
  (match d.tz with
   | none => ['+', '0', '0', apos, '0', '0', apos]
   | some off =>
     [if off < 0 then '-' else '+'] ++
     pad2 (off.natAbs / 60) ++ [apos] ++ pad2 (off.natAbs % 60) ++ [apos])

/-- Encode a datetime as a PDF (pdfmark) date string — `encode_pdf_date`
in the source. -/
def encode_pdf_date (d : PDT) : String := ⟨encodeChars d⟩

/-- Numeric value of a decimal digit character. -/
def d2n (c : Char) : Nat := c.toNat - 48

/-- Decimal-digit test (the character class matched by strptime's numeric
directives). -/
def isDig (c : Char) : Bool := c.isDigit

/-- Python `str.endswith` on character lists. -/
def endsWithL (s pat : List Char) : Bool :=
  decide (s.drop (s.length - pat.length) = pat)

/-- Python `str.replace` on character lists: replaces every non-overlapping
occurrence of the (non-empty) pattern, scanning left to right. -/
def replaceAll (pat rep : List Char) (s : List Char) : List Char :=
  match s with
  | [] => []
  | c :: rest =>
    if h : pat.isPrefixOf (c :: rest) ∧ pat ≠ [] then
      rep ++ replaceAll pat rep ((c :: rest).drop pat.length)
    else
      c :: replaceAll pat rep rest
termination_by s.length
decreasing_by
  · simp only [List.length_drop, List.length_cons]
    have : 0 < pat.length := List.length_pos.mpr h.2
    omega
  · simp only [List.length_cons]; omega

/-- Parse `YYYYMMDDHHMMSS±HHMM` (strptime with format `%Y%m%d%H%M%S%z`,
modelled for the zero-padded colon-free fixed-width shape that pdfmark dates
take after quote removal), including the range validation the `datetime`
constructor performs. -/
def parseZ (l : List Char) : Option PDT :=
  match l with
  | [y1, y2, y3, y4, a1, a2, b1, b2, c1, c2, e1, e2, f1, f2, sg, g1, g2, g3, g4] =>
    if ([y1, y2, y3, y4, a1, a2, b1, b2, c1, c2, e1, e2, f1, f2,
         g1, g2, g3, g4].all isDig) ∧ (sg = '+' ∨ sg = '-') then
      let y := ((d2n y1 * 10 + d2n y2) * 10 + d2n y3) * 10 + d2n y4
      let mo := d2n a1 * 10 + d2n a2
      let dy := d2n b1 * 10 + d2n b2
      let hh := d2n c1 * 10 + d2n c2
      let mi := d2n e1 * 10 + d2n e2
      let ss := d2n f1 * 10 + d2n f2
      let offAbs := (d2n g1 * 10 + d2n g2) * 60 + (d2n g3 * 10 + d2n g4)
      if dtOk y mo dy hh mi ss ∧ offAbs < 1440 then
        some ⟨y, mo, dy, hh, mi, ss,
              some (if sg = '-' then -(offAbs : Int) else (offAbs : Int))⟩
      else none
    else none
  | _ => none

/-- Parse `YYYYMMDDHHMMSS` (strptime with format `%Y%m%d%H%M%S`, fixed-width
regime as above), yielding a zone-naive datetime. -/
def parseNaive (l : List Char) : Option PDT :=
  match l with
  | [y1, y2, y3, y4, a1, a2, b1, b2, c1, c2, e1, e2, f1, f2] =>
    if ([y1, y2, y3, y4, a1, a2, b1, b2, c1, c2, e1, e2, f1, f2].all isDig) then
      let y := ((d2n y1 * 10 + d2n y2) * 10 + d2n y3) * 10 + d2n y4
      let mo := d2n a1 * 10 + d2n a2
      let dy := d2n b1 * 10 + d2n b2
      let hh := d2n c1 * 10 + d2n c2
      let mi := d2n e1 * 10 + d2n e2
      let ss := d2n f1 * 10 + d2n f2
      if dtOk y mo dy hh mi ss then some ⟨y, mo, dy, hh, mi, ss, none⟩ else none
    else none
  | _ => none

/-- The malformed OS X Quartz timezone spelling normalized by `decode_pdf_date`. -/
def zPat : List Char := ['Z', '0', '0', apos, '0', '0', apos]

/-- Replacement text for the malformed timezone spellings. -/
def plusZeros : List Char := ['+', '0', '0', '0', '0']

/-- Character-list body of `decode_pdf_date`: strip the optional `D:` prefix,
normalize the two legacy `Z` zone spellings, remove apostrophes, then try the
zone-aware parse and fall back to the zone-naive parse (a `none` result models
the `ValueError` both strptime calls raise). -/
def decodeChars (s0 : List Char) : Option PDT :=
  let s1 := if s0.take 2 = ['D', ':'] then s0.drop 2 else s0
  let s2 :=
    if endsWithL s1 zPat then replaceAll zPat plusZeros s1
    else if endsWithL s1 ['Z'] then replaceAll ['Z'] plusZeros s1
    else s1
  let s3 := s2.filter (fun c => decide (c ≠ apos))
  match parseZ s3 with
  | some d => some d
  | none => parseNaive s3

/-- Decode a pdfmark date string to a datetime — `decode_pdf_date` in the
source (`none` models the propagated `ValueError`). -/
def decode_pdf_date (s : String) : Option PDT := decodeChars s.data

/-- Python `datetime.isoformat` for a second-precision datetime: the date and
time fields joined as `YYYY-MM-DDTHH:MM:SS`, followed for an aware datetime by
the offset as `±HH:MM` (whole-minute offsets; zero microseconds are omitted by
Python and are not modelled). -/
def isoformat (d : PDT) : String :=
  ⟨pad4 d.year ++ ['-'] ++ pad2 d.month ++ ['-'] ++ pad2 d.day ++ ['T'] ++
   pad2 d.hour ++ [':'] ++ pad2 d.minute ++ [':'] ++ pad2 d.second ++
   (match d.tz with
    | none => []
    | some off =>
      [if off < 0 then '-' else '+'] ++
      pad2 (off.natAbs / 60) ++ [':'] ++ pad2 (off.natAbs % 60))⟩

/-- Python 3.7+ `datetime.fromisoformat` (the branch the source selects on
modern interpreters), modelled for the second-precision shapes produced by
`isoformat`: `YYYY-MM-DD?HH:MM:SS` with an arbitrary date/time separator
character (as CPython allows) and an optional `±HH:MM` offset.  `none` models
the raised `ValueError`. -/
def fromisoformat (s : String) : Option PDT :=
  match s.data with
  | y1 :: y2 :: y3 :: y4 :: s1 :: a1 :: a2 :: s2 :: b1 :: b2 :: _sep :: c1 :: c2 ::
      s3 :: e1 :: e2 :: s4 :: f1 :: f2 :: rest =>
    if ([y1, y2, y3, y4, a1, a2, b1, b2, c1, c2, e1, e2, f1, f2].all isDig) ∧
       s1 = '-' ∧ s2 = '-' ∧ s3 = ':' ∧ s4 = ':' then
      let y := ((d2n y1 * 10 + d2n y2) * 10 + d2n y3) * 10 + d2n y4
      let mo := d2n a1 * 10 + d2n a2
      let dy := d2n b1 * 10 + d2n b2
      let hh := d2n c1 * 10 + d2n c2
      let mi := d2n e1 * 10 + d2n e2
      let ss := d2n f1 * 10 + d2n f2
      if dtOk y mo dy hh mi ss then
        match rest with
        | [] => some ⟨y, mo, dy, hh, mi, ss, none⟩
        | [sg, g1, g2, s5, g3, g4] =>
          if ([g1, g2, g3, g4].all isDig) ∧ (sg = '+' ∨ sg = '-') ∧ s5 = ':' then
            let offAbs := (d2n g1 * 10 + d2n g2) * 60 + (d2n g3 * 10 + d2n g4)
            if offAbs < 1440 then
              some ⟨y, mo, dy, hh, mi, ss,
                    some (if sg = '-' then -(offAbs : Int) else (offAbs : Int))⟩
            else none
          else none
        | _ => none
      else none
    else none
  | _ => none

/-- Python `'; '.join` specialised to the author separator. -/
def joinSemicolon : List String → String
  | [] => ""
  | [a] => a
  | a :: rest => a ++ "; " ++ joinSemicolon rest

/-- The Python value a metadata read yields: a string, Python `None` (an
element with unset text), an ordered list decoded from an `rdf:Seq` container,
or a set decoded from an `rdf:Bag` container.  List/set entries are the
`text` fields of the `rdf:li` children, which may be unset (`Option`).  The
`pset` entries are kept in insertion order; Python's `set` forgets order and
duplicates, which no claim depends on. -/
inductive PVal where
  | s (v : String)
  | noneV
  | list (l : List (Option String))
  | pset (l : List (Option String))
deriving DecidableEq, Repr

/-- Python exceptions crossing the module's interfaces: `KeyError` (absent
key or unknown namespace prefix), `TypeError`, `RuntimeError` (mutation
outside a transaction), `ValueError` (date parse failures and
`Element.remove` of a non-child), `AttributeError` (attribute access on
`None` or on a non-string), and an injected failure of the external
collaborator write (`externalError`). -/
inductive MErr where
  | keyError
  | typeError
  | runtimeError
  | valueError
  | attributeError
  | externalError
deriving DecidableEq, Repr

instance {ε α : Type} [DecidableEq ε] [DecidableEq α] : DecidableEq (Except ε α) := fun a b =>
  match a, b with
  | .ok x, .ok y =>
    match decEq x y with
    | isTrue h => isTrue (by rw [h])
    | isFalse h => isFalse (fun hh => h (Except.ok.inj hh))
  | .ok _, .error _ => isFalse (fun hh => Except.noConfusion hh)
  | .error _, .ok _ => isFalse (fun hh => Except.noConfusion hh)
  | .error e, .error f =>
    match decEq e f with
    | isTrue h => isTrue (by rw [h])
    | isFalse h => isFalse (fun hh => h (Except.error.inj hh))

/-- Collect the strings of a list of optional strings, `none` if any entry is
unset (the shape `'; '.join` requires: a `None` entry raises `TypeError`). -/
def allSome : List (Option String) → Option (List String)
  | [] => some []
  | some s :: rest => (allSome rest).map (fun xs => s :: xs)
  | none :: _ => none

namespace AuthorConverter

/-- `AuthorConverter.xmp_from_docinfo`: wrap the legacy scalar author as a
one-element list. -/
def xmp_from_docinfo (v : String) : List String := [v]

/-- `AuthorConverter.docinfo_from_xmp`: a string passes through unchanged,
any other value is joined with `'; '` (a `None` entry raises `TypeError`). -/
def docinfo_from_xmp : PVal → Except MErr String
  | .s v => .ok v
  | .noneV => .error .typeError
  | .list l => match allSome l with
    | some xs => .ok (joinSemicolon xs)
    | none => .error .typeError
  | .pset l => match allSome l with
    | some xs => .ok (joinSemicolon xs)
    | none => .error .typeError

end AuthorConverter

namespace DateConverter

/-- `DateConverter.xmp_from_docinfo`: the empty string passes through,
otherwise decode the pdfmark date and render it in ISO format (`none` models
the `ValueError` a malformed date raises). -/
def xmp_from_docinfo (v : String) : Option String :=
  if v = "" then some "" else (decode_pdf_date v).map isoformat

/-- `DateConverter.docinfo_from_xmp`: parse the ISO timestamp and re-encode
it as a pdfmark date (`none` models the `ValueError` of `fromisoformat`). -/
def docinfo_from_xmp (v : String) : Option String :=
  (fromisoformat v).map encode_pdf_date

end DateConverter

/-- A namespace-qualified XML name: (namespace URI, local name).  ElementTree
represents tags/keys either as `QName` objects or as Clark-notation strings;
both compare by their Clark text, so the pair is the canonical form. -/
structure QN where
  uri : String
  ln : String
deriving DecidableEq, Repr

/-- Namespace URI constants from the source module. -/
def XMP_NS_DC : String := "http://purl.org/dc/elements/1.1/"

def XMP_NS_PDF : String := "http://ns.adobe.com/pdf/1.3/"

def XMP_NS_PDFA_ID : String := "http://www.aiim.org/pdfa/ns/id/"

def XMP_NS_PDFX_ID : String := "http://www.npes.org/pdfx/ns/id/"

def XMP_NS_RDF : String := "http://www.w3.org/1999/02/22-rdf-syntax-ns#"

def XMP_NS_XMP : String := "http://ns.adobe.com/xap/1.0/"

def XMP_NS_XMP_MM : String := "http://ns.adobe.com/xap/1.0/mm/"

/-- The fixed prefix registry (`DEFAULT_NAMESPACES` / `PdfMetadata.NS`). -/
def DEFAULT_NAMESPACES : List (String × String) :=
  [("adobe:ns:meta/", "x"),
   (XMP_NS_DC, "dc"),
   (XMP_NS_PDF, "pdf"),
   (XMP_NS_PDFA_ID, "pdfaid"),
   (XMP_NS_RDF, "rdf"),
   (XMP_NS_XMP, "xmp"),
   (XMP_NS_XMP_MM, "xapMM")]

/-- Resolve a short prefix to its namespace URI (`self.NS[prefix]`); `none`
models the `KeyError` of an absent dictionary key. -/
def lookupNS (p : String) : Option String :=
  (DEFAULT_NAMESPACES.find? (fun e => decide (e.2 = p))).map (fun e => e.1)

def rdfRDF : QN := ⟨XMP_NS_RDF, "RDF"⟩

def rdfDescription : QN := ⟨XMP_NS_RDF, "Description"⟩

def rdfAbout : QN := ⟨XMP_NS_RDF, "about"⟩

def rdfSeq : QN := ⟨XMP_NS_RDF, "Seq"⟩

def rdfBag : QN := ⟨XMP_NS_RDF, "Bag"⟩

def rdfAlt : QN := ⟨XMP_NS_RDF, "Alt"⟩

def rdfLi : QN := ⟨XMP_NS_RDF, "li"⟩

/-- An ElementTree element: tag, attribute dictionary (insertion-ordered
association list with unique keys), text, and child elements.  The `tail`
text ElementTree keeps between siblings never influences this module and is
not modelled. -/
inductive XElem where
  | mk (tag : QN) (attrs : List (QN × String)) (text : Option String)
       (children : List XElem)

def XElem.tag : XElem → QN
  | .mk t _ _ _ => t

def XElem.attrs : XElem → List (QN × String)
  | .mk _ a _ _ => a

def XElem.text : XElem → Option String
  | .mk _ _ tx _ => tx

def XElem.children : XElem → List XElem
  | .mk _ _ _ cs => cs

mutual

/-- All proper descendants of the elements of a list, each with the child-index
path that locates it, in document (preorder) order; the elements of the list
itself are included, indexed from `i`. -/
def descPathsList : List XElem → Nat → List (List Nat × XElem)
  | [], _ => []
  | e :: rest, i =>
    ([i], e) :: (descPathsOf e).map (fun pe => (i :: pe.1, pe.2)) ++
      descPathsList rest (i + 1)

/-- All proper descendants of an element with their paths, in document order
(the node set ElementTree's `.//` descendant axis walks). -/
def descPathsOf : XElem → List (List Nat × XElem)
  | .mk _ _ _ cs => descPathsList cs 0

end

/-- Replace the `i`-th element of a list by `f` of it (out-of-range leaves the
list unchanged; all uses are in range). -/
def updNth {α : Type} : List α → Nat → (α → α) → List α
  | [], _, _ => []
  | x :: xs, 0, f => f x :: xs
  | x :: xs, n + 1, f => x :: updNth xs n f

/-- Remove the `i`-th element of a list (ElementTree's `Element.remove`, which
removes by object identity, always removes exactly the child at the yielded
index). -/
def removeNth {α : Type} : List α → Nat → List α
  | [], _ => []
  | _ :: xs, 0 => xs
  | x :: xs, n + 1 => x :: removeNth xs n

mutual

/-- Apply `f` to the element at child-index path `p` (in-place ElementTree
mutation, expressed as tree rebuilding). -/
def updAt : XElem → List Nat → (XElem → XElem) → XElem
  | e, [], f => f e
  | .mk t a tx cs, i :: p, f => .mk t a tx (updAtChildren cs i p f)

def updAtChildren : List XElem → Nat → List Nat → (XElem → XElem) → List XElem
  | [], _, _, _ => []
  | c :: cs, 0, p, f => updAt c p f :: cs
  | c :: cs, n + 1, p, f => c :: updAtChildren cs n p f

end

/-- First direct child with the given tag (`Element.find` with a plain
prefixed-name path). -/
def findChild (e : XElem) (q : QN) : Option XElem :=
  e.children.find? (fun c => decide (c.tag = q))

/-- First descendant with the given tag together with its path (`find` with a
`.//` path, document order). -/
def findDeep (e : XElem) (q : QN) : Option (List Nat × XElem) :=
  (descPathsOf e).find? (fun pe => decide (pe.2.tag = q))

/-- Dictionary lookup in an element's attributes (`Element.get` /
`qname in element.keys()`). -/
def attrGet (e : XElem) (q : QN) : Option String :=
  (e.attrs.find? (fun kv => decide (kv.1 = q))).map (fun kv => kv.2)

/-- Dictionary update of an element's attributes (`Element.set`): overwrite
the existing key in place, else append. -/
def attrSet (l : List (QN × String)) (q : QN) (v : String) : List (QN × String) :=
  if l.any (fun kv => decide (kv.1 = q)) then
    l.map (fun kv => if kv.1 = q then (q, v) else kv)
  else l ++ [(q, v)]

/-- An `rdf:li` item element holding one list entry (`ET.SubElement` plus a
text assignment in `__setitem__`). -/
def mkLi (s : String) : XElem := .mk rdfLi [] (some s) []

/-- A freshly built `rdf:Seq` ordered container with one `rdf:li` per item. -/
def mkSeq (l : List String) : XElem := .mk rdfSeq [] none (l.map mkLi)

/-- Python truthiness of an element: ElementTree defines `bool(element)` as
"has at least one child". -/
def elemTruthy (e : XElem) : Bool := !e.children.isEmpty

/-- Python truthiness of `node.text and node.text.strip()`: text present,
non-empty and not all whitespace. -/
def textTruthy : Option String → Bool
  | none => false
  | some s => decide (s.trim ≠ "")

/-- A key handed to the mapping interface: a `QName` instance or a
`prefix:local` short form.  (The source also accepts Clark-notation strings,
which compare identically to the `QN` they denote, and the empty string,
which no claim exercises; neither shape is modelled separately.) -/
inductive MKey where
  | qn (q : QN)
  | short (p ln : String)
deriving DecidableEq, Repr

/-- `PdfMetadata._qname`: a `QName` passes through; a `prefix:local` short
form resolves the prefix through the registry, raising `KeyError`
(`UnknownPrefix`) when it is absent. -/
def qnameOf (k : MKey) : Except MErr QN :=
  match k with
  | .qn q => .ok q
  | .short p ln =>
    match lookupNS p with
    | some uri => .ok ⟨uri, ln⟩
    | none => .error .keyError

/-- One yield of the `_get_elements` generator: either a property attribute
on the `descIdx`-th child of the `rdf:RDF` node (the generator's
`(rdfdesc, qname, value, rdf)` shape), or a matching element node at `path`
below that child (the `(node, None, value, rdfdesc)` shape), carrying the
value the generator computes for it. -/
inductive YieldItem where
  | attr (descIdx : Nat) (q : QN) (v : String)
  | node (descIdx : Nat) (path : List Nat) (v : PVal)
deriving DecidableEq, Repr

/-- `PdfMetadata._get_subelements`: first entry of a non-empty `rdf:Alt`,
else the members of a non-empty `rdf:Bag` as a set, else the members of a
non-empty `rdf:Seq` as a list, else the empty string. -/
def getSubelements (node : XElem) : PVal :=
  let fromContainers : PVal :=
    match findChild node rdfBag with
    | some bag =>
      if elemTruthy bag then .pset (bag.children.map XElem.text)
      else
        match findChild node rdfSeq with
        | some sq => if elemTruthy sq then .list (sq.children.map XElem.text) else .s ""
        | none => .s ""
    | none =>
      match findChild node rdfSeq with
      | some sq => if elemTruthy sq then .list (sq.children.map XElem.text) else .s ""
      | none => .s ""
  match findChild node rdfAlt with
  | some alt =>
    match alt.children with
    | c :: _ =>
      match c.text with
      | some s => .s s
      | none => .noneV
    | [] => fromContainers
  | none => fromContainers

/-- The value `_get_elements` yields for a matched element node: its text if
truthy, else the decoded container value. -/
def nodeVal (node : XElem) : PVal :=
  match node.text with
  | some s => if s.trim ≠ "" then .s s else getSubelements node
  | none => getSubelements node

/-- Is a direct child of `rdf:RDF` one of the Description nodes the store
scans (`rdf:Description[@rdf:about=""]`)? -/
def isDescr (e : XElem) : Bool :=
  decide (e.tag = rdfDescription) && decide (attrGet e rdfAbout = some "")

/-- The yields `_get_elements` produces from one Description node: the
property attribute, if the key is among the node's attributes, followed by
every descendant element whose tag is the key, in document order. -/
def yieldsForDesc (q : QN) (dIdx : Nat) (desc : XElem) : List YieldItem :=
  (match attrGet desc q with
   | some v => [.attr dIdx q v]
   | none => []) ++
  (((descPathsOf desc).filter (fun pe => decide (pe.2.tag = q))).map
    (fun pe => .node dIdx pe.1 (nodeVal pe.2)))

/-- All yields of `_get_elements(key)` below a given `rdf:RDF` element, in
generator order. -/
def descYields (rdf : XElem) (q : QN) : List YieldItem :=
  ((rdf.children.enum.filter (fun ie => isDescr ie.2)).map
    (fun ie => yieldsForDesc q ie.1 ie.2)).flatten

/-- Locate the `rdf:RDF` element (`self._xmp.find('.//rdf:RDF', self.NS)`),
with the path that addresses it for in-place updates. -/
def findRDF (x : XElem) : Option (List Nat × XElem) := findDeep x rdfRDF

/-- The value carried by a yield (the third component of the generator's
tuples). -/
def valOf : YieldItem → PVal
  | .attr _ _ v => .s v
  | .node _ _ pv => pv

/-- Python truthiness of a yielded value (`any(...)` over
`_get_element_values`). -/
def pvTruthy : PVal → Bool
  | .s v => decide (v ≠ "")
  | .noneV => false
  | .list l => !l.isEmpty
  | .pset l => !l.isEmpty

/-- A value passed to `set` / `__setitem__`: a plain string, a list of
strings, or any other Python object (`other`), which the source rejects — or
silently ignores — depending on the branch taken. -/
inductive MVal where
  | str (s : String)
  | list (l : List String)
  | other
deriving DecidableEq, Repr

/-- Python truthiness of an `MVal` (`if not val: continue` in
`load_from_docinfo`; `other` stands for truthy non-string objects). -/
def mvTruthy : MVal → Bool
  | .str s => decide (s ≠ "")
  | .list l => !l.isEmpty
  | .other => true

/-- Strip embedded NUL characters (`val.replace('\x00', '')`, which removes
every occurrence). -/
def stripNulls (s : String) : String := ⟨s.data.filter (fun c => decide (c ≠ nulChar))⟩

/-- The metadata session after its lazy load has happened: the parsed XMP
tree, the editing flag, the two policy flags, the DocInfo dictionary and
persisted metadata stream of the external document, and a failure-injection
flag for the collaborator's stream write (to model serialization failures at
commit).  Lazy loading itself (`_load`/`ensure_loaded`) is not claimed and
the operations below act on the loaded state. -/
structure Sess where
  xmp : XElem
  updating : Bool
  mark : Bool
  syncDocinfo : Bool
  docinfo : List (String × String)
  pdfMeta : Option String
  writeFails : Bool

/-- The trivial empty packet `TRIVIAL_XMP` as parsed: `x:xmpmeta` carrying
`x:xmptk="pikepdf"` around an empty `rdf:RDF` (whitespace text as in the
literal). -/
def trivialXMP : XElem :=
  .mk ⟨"adobe:ns:meta/", "xmpmeta"⟩ [(⟨"adobe:ns:meta/", "xmptk"⟩, "pikepdf")]
    (some "\n ") [.mk rdfRDF [] (some "\n ") []]

/-- The generator `_get_elements(key)` run eagerly: `_qname` errors surface
first, an absent `rdf:RDF` raises `AttributeError`, otherwise the yields in
order. -/
def elemsOf (st : Sess) (k : MKey) : Except MErr (List YieldItem) :=
  match qnameOf k with
  | .error e => .error e
  | .ok q =>
    match findRDF st.xmp with
    | none => .error .attributeError
    | some pr => .ok (descYields pr.2 q)

/-- `PdfMetadata.__contains__`: truthiness of any yielded value, with
`KeyError` (and only `KeyError`) swallowed to `False`. -/
def containsK (st : Sess) (k : MKey) : Except MErr Bool :=
  match elemsOf st k with
  | .error .keyError => .ok false
  | .error e => .error e
  | .ok ys => .ok (ys.any (fun y => pvTruthy (valOf y)))

/-- `PdfMetadata.__getitem__`: the first yielded value, `KeyError` when the
generator is exhausted immediately. -/
def getitem (st : Sess) (k : MKey) : Except MErr PVal :=
  match elemsOf st k with
  | .error e => .error e
  | .ok [] => .error .keyError
  | .ok (y :: _) => .ok (valOf y)

/-- A new Description node holding the key as a property attribute (the
no-existing-node string branch of `__setitem__`). -/
def newDescAttr (q : QN) (s : String) : XElem :=
  .mk rdfDescription [(rdfAbout, ""), (q, s)] none []

/-- A new Description node holding a child element with an `rdf:Seq`
container (the no-existing-node list branch of `__setitem__`). -/
def newDescList (q : QN) (l : List String) : XElem :=
  .mk rdfDescription [(rdfAbout, "")] none [.mk q [] none [mkSeq l]]

/-- Append a child element (`ET.SubElement` of the parent). -/
def appendChild (e : XElem) (c : XElem) : XElem :=
  .mk e.tag e.attrs e.text (e.children ++ [c])

/-- `PdfMetadata.__setitem__`.  NUL characters are stripped from a string
value first; mutation outside a transaction raises `RuntimeError`; then the
first yield of `_get_elements` decides the branch: an attribute accepts only
a plain string (else `TypeError`) and is overwritten; an element node has its
children cleared and replaced by an `rdf:Seq` (list value, text left as it
was) or its text set (string value, children cleared), any other value
raising `TypeError`; with no existing node a new Description is appended for
string and list values, and any other value falls through all branches and is
silently ignored. -/
def setitem (st : Sess) (k : MKey) (v0 : MVal) : Except MErr Sess :=
  let v := match v0 with
    | .str s => MVal.str (stripNulls s)
    | x => x
  if st.updating = false then .error .runtimeError
  else
    match qnameOf k with
    | .error e => .error e
    | .ok q =>
      match findRDF st.xmp with
      | none => .error .attributeError
      | some pr =>
        match descYields pr.2 q with
        | .attr i aq _ :: _ =>
          match v with
          | .str s =>
            .ok { st with xmp := (updAt st.xmp (pr.1 ++ [i])
                    (fun d => .mk d.tag (attrSet d.attrs aq s) d.text d.children)) }
          | _ => .error .typeError
        | .node i p _ :: _ =>
          match v with
          | .list l =>
            .ok { st with xmp := (updAt st.xmp (pr.1 ++ i :: p)
                    (fun n => .mk n.tag n.attrs n.text [mkSeq l])) }
          | .str s =>
            .ok { st with xmp := (updAt st.xmp (pr.1 ++ i :: p)
                    (fun n => .mk n.tag n.attrs (some s) [])) }
          | .other => .error .typeError
        | [] =>
          match v with
          | .list l =>
            .ok { st with xmp := updAt st.xmp pr.1 (fun r => appendChild r (newDescList q l)) }
          | .str s =>
            .ok { st with xmp := updAt st.xmp pr.1 (fun r => appendChild r (newDescAttr q s)) }
          | .other => .ok st

/-- `PdfMetadata.__delitem__`.  Mutation outside a transaction raises
`RuntimeError`; an exhausted generator raises `KeyError`; otherwise
`parent.remove(node)` runs unconditionally — for an attribute yield the pair
is (Description node, `rdf:RDF` parent), so the whole Description node is
removed; for an element yield the node is removed from its Description, which
raises `ValueError` when the match was not a direct child. -/
def delitem (st : Sess) (k : MKey) : Except MErr Sess :=
  if st.updating = false then .error .runtimeError
  else
    match qnameOf k with
    | .error e => .error e
    | .ok q =>
      match findRDF st.xmp with
      | none => .error .attributeError
      | some pr =>
        match descYields pr.2 q with
        | [] => .error .keyError
        | .attr i _ _ :: _ =>
          .ok { st with xmp := (updAt st.xmp pr.1
                  (fun r => .mk r.tag r.attrs r.text (removeNth r.children i))) }
        | .node i p _ :: _ =>
          match p with
          | [j] =>
            .ok { st with xmp := (updAt st.xmp (pr.1 ++ [i])
                    (fun d => .mk d.tag d.attrs d.text (removeNth d.children j))) }
          | _ => .error .valueError

/-- The two pluggable converters of the mapping table. -/
inductive Conv where
  | author
  | date
deriving DecidableEq, Repr

/-- One mapping-table entry: namespace URI, XMP local name, DocInfo key (the
string form of the pikepdf `Name`), optional converter. -/
def DOCINFO_MAPPING : List (String × String × String × Option Conv) :=
  [(XMP_NS_DC, "creator", "/Author", some .author),
   (XMP_NS_DC, "description", "/Subject", none),
   (XMP_NS_DC, "title", "/Title", none),
   (XMP_NS_PDF, "Keywords", "/Keywords", none),
   (XMP_NS_PDF, "Producer", "/Producer", none),
   (XMP_NS_XMP, "CreateDate", "/CreationDate", some .date),
   (XMP_NS_XMP, "CreatorTool", "/Creator", none),
   (XMP_NS_XMP, "ModifyDate", "/ModDate", some .date)]

/-- Association-list lookup in the DocInfo dictionary (`docinfo.get(key)`). -/
def lookupKV (l : List (String × String)) (k : String) : Option String :=
  (l.find? (fun kv => decide (kv.1 = k))).map (fun kv => kv.2)

/-- Association-list store in the DocInfo dictionary
(`docinfo[key] = value`). -/
def setKV (l : List (String × String)) (k v : String) : List (String × String) :=
  if l.any (fun kv => decide (kv.1 = k)) then
    l.map (fun kv => if kv.1 = k then (k, v) else kv)
  else l ++ [(k, v)]

/-- Association-list delete (`del docinfo[key]`, guarded by the containment
check in the source, so deleting an absent key never happens). -/
def removeKV (l : List (String × String)) (k : String) : List (String × String) :=
  l.filter (fun kv => decide (kv.1 ≠ k))

/-- A converter's structured-direction transform as `load_from_docinfo`
applies it: the author converter wraps the scalar into a list, the date
converter re-renders the date (its `ValueError` propagating). -/
def convXmpFromDocinfo (c : Conv) (v : String) : Except MErr MVal :=
  match c with
  | .author => .ok (.list (AuthorConverter.xmp_from_docinfo v))
  | .date =>
    match DateConverter.xmp_from_docinfo v with
    | some s => .ok (.str s)
    | none => .error .valueError

/-- Loop body of `PdfMetadata.load_from_docinfo` over the mapping table:
absent entries are skipped (after the optional caller-selected delete of the
XMP key), present entries are converted and, when truthy, written through
`self[qname] = val` — the guarded `__setitem__`. -/
def loadGo (docinfo : List (String × String)) (deleteMissing : Bool) :
    Sess → List (String × String × String × Option Conv) → Except MErr Sess
  | st, [] => .ok st
  | st, (uri, sk, dn, conv) :: rest =>
    let q : QN := ⟨uri, sk⟩
    match lookupKV docinfo dn with
    | none =>
      if deleteMissing then
        match containsK st (.qn q) with
        | .error e => .error e
        | .ok true =>
          match delitem st (.qn q) with
          | .error e => .error e
          | .ok st' => loadGo docinfo deleteMissing st' rest
        | .ok false => loadGo docinfo deleteMissing st rest
      else loadGo docinfo deleteMissing st rest
    | some v =>
      match (match conv with
             | none => Except.ok (MVal.str v)
             | some c => convXmpFromDocinfo c v) with
      | .error e => .error e
      | .ok mv =>
        if mvTruthy mv then
          match setitem st (.qn q) mv with
          | .error e => .error e
          | .ok st' => loadGo docinfo deleteMissing st' rest
        else loadGo docinfo deleteMissing st rest

/-- `PdfMetadata.load_from_docinfo(docinfo, delete_missing)`. -/
def load_from_docinfo (st : Sess) (docinfo : List (String × String))
    (deleteMissing : Bool) : Except MErr Sess :=
  loadGo docinfo deleteMissing st DOCINFO_MAPPING

/-- A converter's scalar-direction transform as `_update_docinfo` applies it
to the value read from XMP: no converter requires a string (anything else has
no `.encode` and raises `AttributeError`); the author converter passes
strings through and joins containers; the date converter requires a string
(else `TypeError` from `fromisoformat`) and re-encodes it. -/
def convToDocinfo (c : Option Conv) (pv : PVal) : Except MErr String :=
  match c with
  | none =>
    match pv with
    | .s s => .ok s
    | _ => .error .attributeError
  | some .author => AuthorConverter.docinfo_from_xmp pv
  | some .date =>
    match pv with
    | .s s =>
      match DateConverter.docinfo_from_xmp s with
      | some r => .ok r
      | none => .error .valueError
    | _ => .error .typeError

/-- Loop of `PdfMetadata._update_docinfo` over the mapping table, threading
the partially-updated session so that an error caught mid-way leaves the
earlier writes in place, as the in-place Python mutation does.  (The
`self._pdf.docinfo` touch is a no-op here: the modelled dictionary always
exists.  The ASCII-vs-UTF-16 encoding choice stores the same string either
way and is not modelled.) -/
def udGo : Sess → List (String × String × String × Option Conv) → Sess × Option MErr
  | st, [] => (st, none)
  | st, (uri, sk, dn, conv) :: rest =>
    let q : QN := ⟨uri, sk⟩
    match getitem st (.qn q) with
    | .error .keyError => udGo { st with docinfo := removeKV st.docinfo dn } rest
    | .error e => (st, some e)
    | .ok pv =>
      match convToDocinfo conv pv with
      | .error e => (st, some e)
      | .ok s => udGo { st with docinfo := setKV st.docinfo dn s } rest

/-- `PdfMetadata._update_docinfo`. -/
def updateDocinfo (st : Sess) : Sess × Option MErr := udGo st DOCINFO_MAPPING

/-- Clark-notation rendering of a qualified name for the serializer. -/
def showQN (q : QN) : String := "\x7b" ++ q.uri ++ "\x7d" ++ q.ln

mutual

/-- Serialize an element.  ElementTree's writer emits namespace-prefixed
names and escaped text; the exact byte syntax never matters to a claim, so a
canonical Clark-notation rendering stands in for it. -/
def serializeElem : XElem → String
  | .mk t attrs tx cs =>
    "<" ++ showQN t ++
    (attrs.map (fun kv => " " ++ showQN kv.1 ++ "=\"" ++ kv.2 ++ "\"")).foldl
      (fun a b => a ++ b) "" ++
    ">" ++ (match tx with | some s => s | none => "") ++
    serializeList cs ++ "</" ++ showQN t ++ ">"

def serializeList : List XElem → String
  | [] => ""
  | c :: rest => serializeElem c ++ serializeList rest

end

/-- The fixed xpacket processing-instruction markers. -/
def XPACKET_BEGIN : String := "<?xpacket begin=\"\" id=\"W5M0MpCehiHzreSzNTczkc9d\"?>\n"

/-- The trailing xpacket marker. -/
def XPACKET_END : String := "<?xpacket end=\"w\"?>\n"

/-- `PdfMetadata._get_xml_bytes` with the xpacket wrapper (the form
`_apply_changes` uses). -/
def getXmlBytes (x : XElem) : String := XPACKET_BEGIN ++ serializeElem x ++ XPACKET_END

/-- The metadata-date and producer keys stamped on commit. -/
def metadataDateQ : QN := ⟨XMP_NS_XMP, "MetadataDate"⟩

/-- The producer key stamped on commit. -/
def producerQ : QN := ⟨XMP_NS_PDF, "Producer"⟩

/-- `PdfMetadata._apply_changes`, threading the partially-updated session
past any raised error (the Python mutations before the raise persist): stamp
the self-marking fields when enabled (`now` and `ver` stand for
`datetime.now().isoformat()` and the package version), serialize the tree,
write it to the document's metadata stream (the injected `writeFails` models
a failing collaborator write), then export to DocInfo when enabled. -/
def applyChanges (st : Sess) (now ver : String) : Sess × Option MErr :=
  let marked : Sess × Option MErr :=
    if st.mark then
      match setitem st (.qn metadataDateQ) (.str now) with
      | .error e => (st, some e)
      | .ok st1 =>
        match setitem st1 (.qn producerQ) (.str ("pikepdf " ++ ver)) with
        | .error e => (st1, some e)
        | .ok st2 => (st2, none)
    else (st, none)
  match marked with
  | (st', some e) => (st', some e)
  | (st', none) =>
    if st'.writeFails then (st', some .externalError)
    else
      let st'' := { st' with pdfMeta := some (getXmlBytes st'.xmp) }
      if st''.syncDocinfo then updateDocinfo st'' else (st'', none)

/-- `PdfMetadata.__exit__`: when the transaction body raised, return at once
(no serialization); otherwise run `_apply_changes`; in every case the
`finally` block clears the editing flag, the second component carrying any
error `_apply_changes` raised (which propagates to the caller). -/
def exitCtx (st : Sess) (excPresent : Bool) (now ver : String) : Sess × Option MErr :=
  if excPresent then ({ st with updating := false }, none)
  else
    match applyChanges st now ver with
    | (st', e) => ({ st' with updating := false }, e)

/-- `PdfMetadata.__enter__` on a loaded session. -/
def enterCtx (st : Sess) : Sess := { st with updating := true }

/-- A loaded session inside an edit transaction over the trivial empty XMP
packet (policy flags off, empty DocInfo, nothing persisted). -/
def sessFresh : Sess :=
  { xmp := trivialXMP, updating := true, mark := false, syncDocinfo := false,
    docinfo := [], pdfMeta := none, writeFails := false }

/-- The same session outside any transaction. -/
def sessOutside : Sess := { sessFresh with updating := false }

/-- The `dc:title` qualified name. -/
def dcTitleQ : QN := ⟨XMP_NS_DC, "title"⟩

/-- The `dc:format` qualified name (a second property attribute for the
collateral-removal counterexample). -/
def dcFormatQ : QN := ⟨XMP_NS_DC, "format"⟩

/-- A Description node carrying two attribute-encoded properties, as XMP
spec 7.9.2.2 allows. -/
def descAttrSample : XElem :=
  .mk rdfDescription
    [(rdfAbout, ""), (dcTitleQ, "Sample"), (dcFormatQ, "application/pdf")] none []

/-- A session whose store holds `dc:title` and `dc:format` as property
attributes on one Description node, inside a transaction. -/
def sessAttr : Sess :=
  { sessFresh with
    xmp := .mk ⟨"adobe:ns:meta/", "xmpmeta"⟩
      [(⟨"adobe:ns:meta/", "xmptk"⟩, "pikepdf")] (some "\n ")
      [.mk rdfRDF [] (some "\n ") [descAttrSample]] }

/-- The legacy CreationDate string of spec Scenario D. -/
def pdfDateSample : String :=
  ⟨['D', ':', '2', '0', '2', '0', '0', '1', '0', '1', '1', '2', '0', '0', '0', '0',
    '-', '0', '5', apos, '0', '0', apos]⟩

/-- What the date converter actually produces when exporting the Scenario D
timestamp: no `D:` prefix, apostrophes bracketing the zone minutes. -/
def pdfDateExported : String :=
  ⟨['2', '0', '2', '0', '0', '1', '0', '1', '1', '2', '0', '0', '0', '0',
    '-', '0', '5', apos, '0', '0', apos]⟩

/-- A string with an embedded NUL character. -/
def nulStr : String := ⟨['a', nulChar, 'b']⟩

/-- Classification of one mapping-table entry during `load_from_docinfo`:
skipped (absent, or present but converting to a falsy value), triggering a
write through the guarded `__setitem__`, or raising inside the converter
(a malformed legacy date). -/
inductive Outcome where
  | skip
  | trigger
  | convErr
deriving DecidableEq, Repr

/-- The classification function, matching the branch structure of the
`load_from_docinfo` loop body. -/
def entryOutcome (docinfo : List (String × String))
    (e : String × String × String × Option Conv) : Outcome :=
  match lookupKV docinfo e.2.2.1 with
  | none => .skip
  | some v =>
    match (match e.2.2.2 with
           | none => Except.ok (MVal.str v)
           | some c => convXmpFromDocinfo c v) with
    | .error _ => .convErr
    | .ok mv => if mvTruthy mv then .trigger else .skip

theorem digitChar_ne_apos (k : Nat) (hk : k ≤ 9) : Nat.digitChar k ≠ apos := by
  interval_cases k <;> decide

theorem digitChar_ne_D (k : Nat) (hk : k ≤ 9) : Nat.digitChar k ≠ 'D' := by
  interval_cases k <;> decide

theorem digitChar_ne_Z (k : Nat) (hk : k ≤ 9) : Nat.digitChar k ≠ 'Z' := by
  interval_cases k <;> decide

theorem isDig_digitChar (k : Nat) (hk : k ≤ 9) : isDig (Nat.digitChar k) = true := by
  interval_cases k <;> decide

theorem d2n_digitChar (k : Nat) (hk : k ≤ 9) : d2n (Nat.digitChar k) = k := by
  interval_cases k <;> decide

theorem filter_pad2 (n : Nat) (h : n ≤ 99) :
    (pad2 n).filter (fun c => decide (c ≠ apos)) = pad2 n := by
  have h1 : n / 10 ≤ 9 := by omega
  have h2 : n % 10 ≤ 9 := by omega
  simp [pad2, digitChar_ne_apos _ h1, digitChar_ne_apos _ h2]

theorem filter_pad4 (n : Nat) (h : n ≤ 9999) :
    (pad4 n).filter (fun c => decide (c ≠ apos)) = pad4 n := by
  have h1 : n / 1000 ≤ 9 := by omega
  have h2 : n / 100 % 10 ≤ 9 := by omega
  have h3 : n / 10 % 10 ≤ 9 := by omega
  have h4 : n % 10 ≤ 9 := by omega
  simp [pad4, digitChar_ne_apos _ h1, digitChar_ne_apos _ h2,
        digitChar_ne_apos _ h3, digitChar_ne_apos _ h4]

/-- C1: exiting an edit transaction after the body raised serializes nothing
(the session — in particular its persisted metadata stream — is returned with
only the editing flag cleared), and on every exit path, including a failing
serialization or export inside `_apply_changes`, the editing flag ends up
`false`. -/
theorem c1_exit_discards_and_resets :
    (∀ st now ver, exitCtx st true now ver = ({ st with updating := false }, none)) ∧
    (∀ st exc now ver, (exitCtx st exc now ver).1.updating = false) := by
  constructor
  · intro st now ver; rfl
  · intro st exc now ver
    cases exc with
    | true => rfl
    | false =>
      rcases h : applyChanges st now ver with ⟨st', e⟩
      simp [exitCtx, h]

/-- C9: the author converter wraps a legacy scalar author into a one-element
list in the structured direction; in the scalar direction a string passes
through unchanged, a one-element list yields its element unwrapped, and a
multi-element list is joined with the separator `; ` (Scenario C instance
included). -/
theorem c9_author_converter :
    (∀ s, AuthorConverter.xmp_from_docinfo s = [s]) ∧
    (∀ s, AuthorConverter.docinfo_from_xmp (.s s) = .ok s) ∧
    (∀ a, AuthorConverter.docinfo_from_xmp (.list [some a]) = .ok a) ∧
    (∀ a b, AuthorConverter.docinfo_from_xmp (.list [some a, some b]) = .ok (a ++ "; " ++ b)) ∧
    AuthorConverter.docinfo_from_xmp (.list [some "Alice", some "Bob"]) = .ok "Alice; Bob" := by
  refine ⟨fun s => rfl, fun s => rfl, fun a => rfl, fun a b => rfl, by decide⟩

/-- C5 counterexample: exporting the XMP value `2020-01-01T12:00:00-05:00`
through the date converter does not produce the claimed legacy string
`D:20200101120000-0500`. -/
theorem c5_export_counterexample :
    DateConverter.docinfo_from_xmp "2020-01-01T12:00:00-05:00" ≠
      some "D:20200101120000-0500" := by decide

/-- C5 (amended): importing the Scenario D legacy CreationDate yields the XMP
value `2020-01-01T12:00:00-05:00`, and exporting that value back through the
date converter yields `20200101120000-05'00'` — without a `D:` prefix and
with the apostrophe quoting convention. -/
theorem c5_date_converter_scenario :
    DateConverter.xmp_from_docinfo pdfDateSample = some "2020-01-01T12:00:00-05:00" ∧
    DateConverter.docinfo_from_xmp "2020-01-01T12:00:00-05:00" = some pdfDateExported := by
  constructor
  · decide
  · decide

/-- C8 (amended): for a `prefix:local` key whose prefix is not registered,
`get` raises `KeyError` (the unknown-prefix lookup failure), and so do `set`
and `delete` when called inside a transaction — but `contains` swallows the
`KeyError` and returns `False` instead of failing. -/
theorem c8_unknown_prefix (p ln : String) (hp : lookupNS p = none) :
    (∀ st, containsK st (.short p ln) = .ok false) ∧
    (∀ st, getitem st (.short p ln) = .error .keyError) ∧
    (∀ st v, st.updating = true → setitem st (.short p ln) v = .error .keyError) ∧
    (∀ st, st.updating = true → delitem st (.short p ln) = .error .keyError) := by
  have hq : qnameOf (.short p ln) = .error .keyError := by
    simp [qnameOf, hp]
  refine ⟨?_, ?_, ?_, ?_⟩
  · intro st; simp [containsK, elemsOf, hq]
  · intro st; simp [getitem, elemsOf, hq]
  · intro st v hu; cases v <;> simp [setitem, hq, hu]
  · intro st hu; simp [delitem, hq, hu]

/-- C8 witness: the unknown prefix `foo` at a concrete session. -/
theorem c8_unknown_prefix_witness :
    containsK sessFresh (.short "foo" "bar") = .ok false ∧
    getitem sessFresh (.short "foo" "bar") = .error .keyError ∧
    setitem sessFresh (.short "foo" "bar") (.str "x") = .error .keyError ∧
    delitem sessFresh (.short "foo" "bar") = .error .keyError := by
  have h := c8_unknown_prefix "foo" "bar" (by decide)
  exact ⟨h.1 sessFresh, h.2.1 sessFresh, h.2.2.1 sessFresh (.str "x") rfl,
         h.2.2.2 sessFresh rfl⟩

/-- C8 counterexample: `contains` with an unregistered prefix does not fail —
it returns `False` (the `KeyError` is caught), contradicting the claim that
all four operations fail alike. -/
theorem c8_contains_counterexample :
    containsK sessFresh (.short "foo" "bar") = .ok false := by decide

theorem setitem_not_updating (st : Sess) (k : MKey) (v : MVal)
    (hu : st.updating = false) : setitem st k v = .error .runtimeError := by
  cases v <;> simp [setitem, hu]

/-- C10 helper: running the import loop outside a transaction fails with
`RuntimeError` as soon as the first non-skipped mapping entry triggers a
write. -/
theorem loadGo_runtime (docinfo : List (String × String)) (st : Sess)
    (hu : st.updating = false) :
    ∀ M : List (String × String × String × Option Conv),
      (M.map (entryOutcome docinfo)).find? (fun o => decide (o ≠ Outcome.skip)) =
        some .trigger →
      loadGo docinfo false st M = .error .runtimeError := by
  intro M
  induction M with
  | nil => intro h; simp [List.find?] at h
  | cons e rest ih =>
    intro h
    obtain ⟨uri, sk, dn, conv⟩ := e
    rw [List.map_cons, List.find?_cons] at h
    cases hl : lookupKV docinfo dn with
    | none =>
      have hout : entryOutcome docinfo (uri, sk, dn, conv) = .skip := by
        unfold entryOutcome; simp only [hl]
      rw [hout] at h
      have h' : (rest.map (entryOutcome docinfo)).find?
          (fun o => decide (o ≠ Outcome.skip)) = some .trigger := h
      simp only [loadGo, hl, Bool.false_eq_true, if_false]
      exact ih h'
    | some v =>
      cases hc : (match conv with
                  | none => Except.ok (MVal.str v)
                  | some c => convXmpFromDocinfo c v) with
      | error err =>
        have hout : entryOutcome docinfo (uri, sk, dn, conv) = .convErr := by
          unfold entryOutcome; simp only [hl]; rw [hc]
        rw [hout] at h
        have h' : some Outcome.convErr = some Outcome.trigger := h
        simp at h'
      | ok mv =>
        cases hmt : mvTruthy mv with
        | false =>
          have hout : entryOutcome docinfo (uri, sk, dn, conv) = .skip := by
            unfold entryOutcome; simp only [hl]; rw [hc]; simp [hmt]
          rw [hout] at h
          have h' : (rest.map (entryOutcome docinfo)).find?
              (fun o => decide (o ≠ Outcome.skip)) = some .trigger := h
          simp only [loadGo, hl]
          rw [hc]
          simp only [hmt, Bool.false_eq_true, if_false]
          exact ih h'
        | true =>
          simp only [loadGo, hl]
          rw [hc]
          simp only [hmt, if_true, setitem_not_updating st _ _ hu]

/-- C10 (amended): calling `load_from_docinfo` outside an edit transaction
fails with the mutation-outside-transaction `RuntimeError` whenever the first
mapping-table entry that is not skipped (present in the DocInfo dictionary
with a truthy converted value) triggers the guarded write — in particular for
any non-empty plain entry or any present Author entry.  When an earlier
present date entry is malformed, the date converter's `ValueError` is raised
instead (see the counterexample). -/
theorem c10_load_outside_transaction (st : Sess) (docinfo : List (String × String))
    (hu : st.updating = false)
    (h : (DOCINFO_MAPPING.map (entryOutcome docinfo)).find?
          (fun o => decide (o ≠ Outcome.skip)) = some .trigger) :
    load_from_docinfo st docinfo false = .error .runtimeError :=
  loadGo_runtime docinfo st hu DOCINFO_MAPPING h

/-- C10 witness: importing a DocInfo dictionary holding only an Author entry
outside a transaction raises `RuntimeError`. -/
theorem c10_load_outside_transaction_witness :
    load_from_docinfo sessOutside [("/Author", "Alice")] false =
      .error .runtimeError :=
  c10_load_outside_transaction sessOutside [("/Author", "Alice")] rfl (by decide)

/-- C10 counterexample: a DocInfo dictionary with one mapped, non-empty entry
(a malformed CreationDate) makes `load_from_docinfo` outside a transaction
fail with `ValueError` from the date converter, not with the claimed
mutation-outside-transaction error. -/
theorem c10_date_error_counterexample :
    load_from_docinfo sessOutside [("/CreationDate", "bogus")] false =
      .error .valueError ∧ MErr.valueError ≠ MErr.runtimeError := by
  constructor
  · rfl
  · decide

/-- C6 (amended): inside a transaction, when the first match for the key is a
property attribute, writing a list — or any non-string value — fails with
`TypeError` before anything is stored; when the first match is an element
node, a value that is neither string nor list fails with `TypeError` likewise;
but when the key has no match at all, a value that is neither string nor list
is silently ignored (no error, no change) rather than rejected. -/
theorem c6_type_mismatch :
    (∀ st k l i aq av rest, st.updating = true →
      elemsOf st k = .ok (.attr i aq av :: rest) →
      setitem st k (.list l) = .error .typeError ∧
      setitem st k .other = .error .typeError) ∧
    (∀ st k i p pv rest, st.updating = true →
      elemsOf st k = .ok (.node i p pv :: rest) →
      setitem st k .other = .error .typeError) ∧
    (∀ st k, st.updating = true → elemsOf st k = .ok [] →
      setitem st k .other = .ok st) := by
  refine ⟨?_, ?_, ?_⟩
  · intro st k l i aq av rest hu h
    cases hq : qnameOf k with
    | error e => rw [elemsOf, hq] at h; exact absurd h (by simp)
    | ok q =>
      cases hr : findRDF st.xmp with
      | none => rw [elemsOf, hq, hr] at h; exact absurd h (by simp)
      | some pr =>
        rw [elemsOf, hq, hr] at h
        have hy : descYields pr.2 q = .attr i aq av :: rest := by
          exact Except.ok.inj h
        constructor <;> simp [setitem, hu, hq, hr, hy]
  · intro st k i p pv rest hu h
    cases hq : qnameOf k with
    | error e => rw [elemsOf, hq] at h; exact absurd h (by simp)
    | ok q =>
      cases hr : findRDF st.xmp with
      | none => rw [elemsOf, hq, hr] at h; exact absurd h (by simp)
      | some pr =>
        rw [elemsOf, hq, hr] at h
        have hy : descYields pr.2 q = .node i p pv :: rest := Except.ok.inj h
        simp [setitem, hu, hq, hr, hy]
  · intro st k hu h
    cases hq : qnameOf k with
    | error e => rw [elemsOf, hq] at h; exact absurd h (by simp)
    | ok q =>
      cases hr : findRDF st.xmp with
      | none => rw [elemsOf, hq, hr] at h; exact absurd h (by simp)
      | some pr =>
        rw [elemsOf, hq, hr] at h
        have hy : descYields pr.2 q = [] := Except.ok.inj h
        simp [setitem, hu, hq, hr, hy]

/-- C6 witness: the attribute-stored `dc:title` rejects a list and a
non-string with `TypeError`; the absent `dc:format` on the fresh store
silently accepts a non-string. -/
theorem c6_type_mismatch_witness :
    setitem sessAttr (.qn dcTitleQ) (.list ["X"]) = .error .typeError ∧
    setitem sessAttr (.qn dcTitleQ) .other = .error .typeError ∧
    setitem sessFresh (.qn dcFormatQ) .other = .ok sessFresh := by
  have h := c6_type_mismatch
  exact ⟨(h.1 sessAttr (.qn dcTitleQ) ["X"] 0 dcTitleQ "Sample" [] rfl rfl).1,
         (h.1 sessAttr (.qn dcTitleQ) ["X"] 0 dcTitleQ "Sample" [] rfl rfl).2,
         h.2.2 sessFresh (.qn dcFormatQ) rfl rfl⟩

/-- C6 counterexample: with the key absent from the store, a value that is
neither a string nor a list is silently ignored — the operation succeeds and
the session is unchanged, contradicting the claimed immediate `TypeError`. -/
theorem c6_silent_ignore_counterexample :
    setitem sessFresh (.qn dcTitleQ) .other = .ok sessFresh := rfl

/-- C4 (amended): deleting a key whose first match is a property attribute is
not a no-op: the generator yields the Description node itself with the
`rdf:RDF` element as parent, and `parent.remove(node)` removes the whole
Description node — the key disappears, along with every other property
attribute stored on that node. -/
theorem c4_attr_delete_removes_description (st : Sess) (k : MKey) (q : QN)
    (i : Nat) (v : String) (rest : List YieldItem) (pr : List Nat × XElem)
    (hu : st.updating = true)
    (hq : qnameOf k = .ok q)
    (hr : findRDF st.xmp = some pr)
    (hy : descYields pr.2 q = .attr i q v :: rest) :
    delitem st k = .ok { st with xmp := (updAt st.xmp pr.1
      (fun r => .mk r.tag r.attrs r.text (removeNth r.children i))) } := by
  simp [delitem, hu, hq, hr, hy]

/-- C4 witness: deleting the attribute-stored `dc:title` removes its whole
Description node from the store. -/
theorem c4_attr_delete_witness :
    delitem sessAttr (.qn dcTitleQ) = .ok { sessAttr with
      xmp := (updAt sessAttr.xmp [0] (fun r =>
        .mk r.tag r.attrs r.text (removeNth r.children 0))) } :=
  c4_attr_delete_removes_description sessAttr (.qn dcTitleQ) dcTitleQ 0 "Sample"
    [] ([0], .mk rdfRDF [] (some "\n ") [descAttrSample]) rfl rfl rfl rfl

/-- C4 counterexample: on a store where `dc:title` and `dc:format` live as
property attributes of the same Description node, deleting `dc:title`
succeeds and afterwards both keys are gone — the document is changed, not
left untouched, so attribute deletion is not a no-op. -/
theorem c4_not_noop_counterexample :
    containsK sessAttr (.qn dcTitleQ) = .ok true ∧
    containsK sessAttr (.qn dcFormatQ) = .ok true ∧
    (delitem sessAttr (.qn dcTitleQ)).bind
      (fun st' => containsK st' (.qn dcTitleQ)) = .ok false ∧
    (delitem sessAttr (.qn dcTitleQ)).bind
      (fun st' => containsK st' (.qn dcFormatQ)) = .ok false := by
  refine ⟨by decide, by decide, by decide, by decide⟩

theorem list_map_mkLi_text (l : List String) :
    (l.map mkLi).map XElem.text = l.map some := by
  induction l with
  | nil => rfl
  | cons a t ih => simp only [List.map_cons, ih]; rfl

theorem getitem_head (st : Sess) (k : MKey) (q : QN) (pr : List Nat × XElem)
    (y : YieldItem) (ys : List YieldItem)
    (hq : qnameOf k = .ok q) (hr : findRDF st.xmp = some pr)
    (hy : descYields pr.2 q = y :: ys) : getitem st k = .ok (valOf y) := by
  simp [getitem, elemsOf, hq, hr, hy]

theorem set_list_fresh (st : Sess) (hx : st.xmp = trivialXMP) (hu : st.updating = true)
    (q : QN) (hq : q ≠ rdfAbout) (l : List String) (hl : l ≠ []) :
    (setitem st (.qn q) (.list l)).bind (fun st2 => getitem st2 (.qn q)) =
      .ok (.list (l.map some)) := by
  obtain ⟨a, t, rfl⟩ := List.exists_cons_of_ne_nil hl
  have hd0 : (decide (rdfAbout = q)) = false := decide_eq_false (fun hh => hq hh.symm)
  have hfr : findRDF st.xmp = some ([0], XElem.mk rdfRDF [] (some "\n ") []) := by
    rw [hx]; rfl
  have hdy : descYields (XElem.mk rdfRDF [] (some "\n ") []) q = [] := rfl
  have hupd : updAt st.xmp [0] (fun r => appendChild r (newDescList q (a :: t))) =
      XElem.mk ⟨"adobe:ns:meta/", "xmpmeta"⟩ [(⟨"adobe:ns:meta/", "xmptk"⟩, "pikepdf")]
        (some "\n ") [XElem.mk rdfRDF [] (some "\n ") [newDescList q (a :: t)]] := by
    rw [hx]; rfl
  have hset : setitem st (.qn q) (.list (a :: t)) = .ok { st with xmp :=
      (XElem.mk ⟨"adobe:ns:meta/", "xmpmeta"⟩ [(⟨"adobe:ns:meta/", "xmptk"⟩, "pikepdf")]
        (some "\n ") [XElem.mk rdfRDF [] (some "\n ") [newDescList q (a :: t)]]) } := by
    simp only [setitem, hu, qnameOf, hfr, hdy, hupd, Bool.true_eq_false, if_false]
  have hfr2 : findRDF (XElem.mk ⟨"adobe:ns:meta/", "xmpmeta"⟩
      [(⟨"adobe:ns:meta/", "xmptk"⟩, "pikepdf")] (some "\n ")
      [XElem.mk rdfRDF [] (some "\n ") [newDescList q (a :: t)]]) =
      some ([0], XElem.mk rdfRDF [] (some "\n ") [newDescList q (a :: t)]) := rfl
  have hag : attrGet (newDescList q (a :: t)) q = none := by
    simp [attrGet, newDescList, List.find?, hd0]
  have hy1 : descYields (XElem.mk rdfRDF [] (some "\n ") [newDescList q (a :: t)]) q =
      yieldsForDesc q 0 (newDescList q (a :: t)) ++ [] := rfl
  obtain ⟨tail, htail⟩ : ∃ tl, descPathsOf (newDescList q (a :: t)) =
      ([0], XElem.mk q [] none [mkSeq (a :: t)]) :: tl := ⟨_, rfl⟩
  have htag : (fun pe => decide (pe.2.tag = q)) (([0], XElem.mk q [] none [mkSeq (a :: t)]) :
      List Nat × XElem) = true := by simp [XElem.tag]
  have hy3 : descYields (XElem.mk rdfRDF [] (some "\n ") [newDescList q (a :: t)]) q =
      YieldItem.node 0 [0] (nodeVal (XElem.mk q [] none [mkSeq (a :: t)])) ::
        ((tail.filter (fun pe => decide (pe.2.tag = q))).map
          (fun pe => YieldItem.node 0 pe.1 (nodeVal pe.2))) := by
    rw [hy1]
    unfold yieldsForDesc
    rw [hag, htail]
    simp [List.filter_cons, htag]
  have hca : findChild (XElem.mk q [] none [mkSeq (a :: t)]) rdfAlt = none := rfl
  have hcb : findChild (XElem.mk q [] none [mkSeq (a :: t)]) rdfBag = none := rfl
  have hcs : findChild (XElem.mk q [] none [mkSeq (a :: t)]) rdfSeq =
      some (mkSeq (a :: t)) := rfl
  have het : elemTruthy (XElem.mk rdfSeq [] none (List.map mkLi (a :: t))) = true := rfl
  have hnv : nodeVal (XElem.mk q [] none [mkSeq (a :: t)]) =
      .list ((a :: t).map some) := by
    unfold nodeVal
    simp only [XElem.text]
    unfold getSubelements
    rw [hca, hcb, hcs]
    simp only [mkSeq, XElem.children, list_map_mkLi_text, het, if_true]
  rw [hset]
  show getitem _ (.qn q) = _
  rw [getitem_head _ (.qn q) q _ _ _ rfl hfr2 hy3]
  simp only [valOf, hnv]

theorem set_str_fresh (st : Sess) (hx : st.xmp = trivialXMP) (hu : st.updating = true)
    (q : QN) (hq : q ≠ rdfAbout) (s : String) :
    (setitem st (.qn q) (.str s)).bind (fun st2 => getitem st2 (.qn q)) =
      .ok (.s (stripNulls s)) := by
  have hd0 : (decide (rdfAbout = q)) = false := decide_eq_false (fun hh => hq hh.symm)
  have hqq : (decide (q = q)) = true := by simp
  have hfr : findRDF st.xmp = some ([0], XElem.mk rdfRDF [] (some "\n ") []) := by
    rw [hx]; rfl
  have hdy : descYields (XElem.mk rdfRDF [] (some "\n ") []) q = [] := rfl
  have hupd : updAt st.xmp [0] (fun r => appendChild r (newDescAttr q (stripNulls s))) =
      XElem.mk ⟨"adobe:ns:meta/", "xmpmeta"⟩ [(⟨"adobe:ns:meta/", "xmptk"⟩, "pikepdf")]
        (some "\n ") [XElem.mk rdfRDF [] (some "\n ") [newDescAttr q (stripNulls s)]] := by
    rw [hx]; rfl
  have hset : setitem st (.qn q) (.str s) = .ok { st with xmp :=
      (XElem.mk ⟨"adobe:ns:meta/", "xmpmeta"⟩ [(⟨"adobe:ns:meta/", "xmptk"⟩, "pikepdf")]
        (some "\n ") [XElem.mk rdfRDF [] (some "\n ") [newDescAttr q (stripNulls s)]]) } := by
    simp only [setitem, hu, qnameOf, hfr, hdy, hupd, Bool.true_eq_false, if_false]
  have hfr2 : findRDF (XElem.mk ⟨"adobe:ns:meta/", "xmpmeta"⟩
      [(⟨"adobe:ns:meta/", "xmptk"⟩, "pikepdf")] (some "\n ")
      [XElem.mk rdfRDF [] (some "\n ") [newDescAttr q (stripNulls s)]]) =
      some ([0], XElem.mk rdfRDF [] (some "\n ") [newDescAttr q (stripNulls s)]) := rfl
  have hag : attrGet (newDescAttr q (stripNulls s)) q = some (stripNulls s) := by
    simp [attrGet, newDescAttr, List.find?, hd0, hqq]
  have hdp : descPathsOf (newDescAttr q (stripNulls s)) = [] := rfl
  have hy3 : descYields (XElem.mk rdfRDF [] (some "\n ") [newDescAttr q (stripNulls s)]) q =
      [.attr 0 q (stripNulls s)] := by
    have h1 : descYields (XElem.mk rdfRDF [] (some "\n ")
        [newDescAttr q (stripNulls s)]) q =
        yieldsForDesc q 0 (newDescAttr q (stripNulls s)) ++ [] := rfl
    rw [h1]
    unfold yieldsForDesc
    rw [hag, hdp]
    simp
  rw [hset]
  show getitem _ (.qn q) = _
  rw [getitem_head _ (.qn q) q _ _ _ rfl hfr2 hy3]
  rfl

theorem stripNulls_eq_self (s : String) (h : nulChar ∉ s.data) : stripNulls s = s := by
  cases s with
  | mk d =>
    unfold stripNulls
    congr 1
    apply List.filter_eq_self.mpr
    intro c hc
    exact decide_eq_true (fun heq => h (heq ▸ hc))

/-- C3 (amended): on a store not yet holding the key (the freshly created
trivial packet), for every data key and every non-empty list of strings,
setting then reading back inside a transaction yields a list equal to the
input in order; for every single string free of embedded NUL characters,
setting then reading back yields that exact string.  (The empty list reads
back as `''`, and NUL characters are stripped — see the counterexample and
C7.) -/
theorem c3_container_fidelity (st : Sess) (hx : st.xmp = trivialXMP)
    (hu : st.updating = true) (q : QN) (hq : q ≠ rdfAbout) :
    (∀ l : List String, l ≠ [] →
      (setitem st (.qn q) (.list l)).bind (fun st2 => getitem st2 (.qn q)) =
        .ok (.list (l.map some))) ∧
    (∀ s : String, nulChar ∉ s.data →
      (setitem st (.qn q) (.str s)).bind (fun st2 => getitem st2 (.qn q)) =
        .ok (.s s)) := by
  constructor
  · intro l hl; exact set_list_fresh st hx hu q hq l hl
  · intro s hs
    have h := set_str_fresh st hx hu q hq s
    rwa [stripNulls_eq_self s hs] at h

/-- C3 witness: `dc:title` on the fresh session, with `["A", "B"]` and
`"Hello"`. -/
theorem c3_container_fidelity_witness :
    (setitem sessFresh (.qn dcTitleQ) (.list ["A", "B"])).bind
      (fun st2 => getitem st2 (.qn dcTitleQ)) = .ok (.list [some "A", some "B"]) ∧
    (setitem sessFresh (.qn dcTitleQ) (.str "Hello")).bind
      (fun st2 => getitem st2 (.qn dcTitleQ)) = .ok (.s "Hello") := by
  have h := c3_container_fidelity sessFresh rfl rfl dcTitleQ (by decide)
  exact ⟨h.1 ["A", "B"] (by decide), h.2 "Hello" (by decide)⟩

/-- C3 counterexample: setting a key to the empty list (N = 0) and reading it
back yields the empty string, not a list equal to the input — the `rdf:Seq`
written for it has no children, so ElementTree's truthiness test skips it and
the container decoder falls through to `''`. -/
theorem c3_empty_list_counterexample :
    (setitem sessFresh (.qn dcTitleQ) (.list [])).bind
      (fun st2 => getitem st2 (.qn dcTitleQ)) = .ok (.s "") ∧
    PVal.s "" ≠ PVal.list [] := by
  exact ⟨rfl, by decide⟩

/-- C7 (amended): a scalar string write stores the value with every embedded
NUL character stripped — reading the key back yields `stripNulls` of the
input, which contains no NUL — but list values are stored verbatim, NULs
included (see the counterexample). -/
theorem c7_null_stripping (st : Sess) (hx : st.xmp = trivialXMP)
    (hu : st.updating = true) (q : QN) (hq : q ≠ rdfAbout) (s : String) :
    (setitem st (.qn q) (.str s)).bind (fun st2 => getitem st2 (.qn q)) =
      .ok (.s (stripNulls s)) ∧
    nulChar ∉ (stripNulls s).data := by
  refine ⟨set_str_fresh st hx hu q hq s, ?_⟩
  intro hmem
  unfold stripNulls at hmem
  rw [List.mem_filter] at hmem
  exact absurd hmem.2 (by simp)

/-- C7 witness: the NUL-containing string at `dc:title` on the fresh session. -/
theorem c7_null_stripping_witness :
    (setitem sessFresh (.qn dcTitleQ) (.str nulStr)).bind
      (fun st2 => getitem st2 (.qn dcTitleQ)) = .ok (.s (stripNulls nulStr)) ∧
    nulChar ∉ (stripNulls nulStr).data :=
  c7_null_stripping sessFresh rfl rfl dcTitleQ (by decide) nulStr

/-- C7 counterexample: a NUL character inside a string of a list value is not
stripped — the stored value read back still contains the NUL, contradicting
the claim that no stored value ever contains one. -/
theorem c7_list_null_counterexample :
    (setitem sessFresh (.qn dcTitleQ) (.list [nulStr])).bind
      (fun st2 => getitem st2 (.qn dcTitleQ)) = .ok (.list [some nulStr]) ∧
    nulChar ∈ nulStr.data := by
  exact ⟨rfl, by decide⟩

theorem decode_encode_aux (y mo dy hh mi ss oh om : Nat) (sg : Char)
    (hy1 : 1000 ≤ y) (hv : dtOk y mo dy hh mi ss)
    (hoh : oh ≤ 23) (hom : om ≤ 59) (hoff : oh * 60 + om < 1440)
    (hsg : sg = '+' ∨ sg = '-') :
    decodeChars (pad4 y ++ pad2 mo ++ pad2 dy ++ pad2 hh ++ pad2 mi ++ pad2 ss ++
        ([sg] ++ pad2 oh ++ [apos] ++ pad2 om ++ [apos])) =
      some ⟨y, mo, dy, hh, mi, ss,
            some (if sg = '-' then -((oh * 60 + om : Nat) : Int)
                  else ((oh * 60 + om : Nat) : Int))⟩ := by
  have hvKeep := hv
  obtain ⟨g1, hy2, g3, g4, g5, g6, g7, g8, g9⟩ := hv
  have b1 : y / 1000 ≤ 9 := by omega
  have hmo99 : mo ≤ 99 := by omega
  have hdim : daysInMonth y mo ≤ 31 := by
    unfold daysInMonth
    split_ifs <;> omega
  have hdy99 : dy ≤ 99 := by omega
  have hhh99 : hh ≤ 99 := by omega
  have hmi99 : mi ≤ 99 := by omega
  have hss99 : ss ≤ 99 := by omega
  have hoh99 : oh ≤ 99 := by omega
  have hom99 : om ≤ 99 := by omega
  have hsgZ : sg ≠ 'Z' := by rcases hsg with rfl | rfl <;> decide
  have hsgA : (decide (sg ≠ apos)) = true := by rcases hsg with rfl | rfl <;> decide
  have hsgne : sg ≠ apos := by rcases hsg with rfl | rfl <;> decide
  have hap : (decide (apos ≠ apos)) = false := by decide
  have hC1 : ¬ ((pad4 y ++ pad2 mo ++ pad2 dy ++ pad2 hh ++ pad2 mi ++ pad2 ss ++
      ([sg] ++ pad2 oh ++ [apos] ++ pad2 om ++ [apos])).take 2 = ['D', ':']) := by
    intro hcontra
    have ht : (pad4 y ++ pad2 mo ++ pad2 dy ++ pad2 hh ++ pad2 mi ++ pad2 ss ++
        ([sg] ++ pad2 oh ++ [apos] ++ pad2 om ++ [apos])).take 2 =
        [Nat.digitChar (y / 1000), Nat.digitChar (y / 100 % 10)] := rfl
    rw [ht] at hcontra
    simp only [List.cons.injEq] at hcontra
    exact digitChar_ne_D _ b1 hcontra.1
  have hC2 : endsWithL (pad4 y ++ pad2 mo ++ pad2 dy ++ pad2 hh ++ pad2 mi ++ pad2 ss ++
      ([sg] ++ pad2 oh ++ [apos] ++ pad2 om ++ [apos])) zPat = false := by
    unfold endsWithL
    apply decide_eq_false
    intro hcontra
    have hd : (pad4 y ++ pad2 mo ++ pad2 dy ++ pad2 hh ++ pad2 mi ++ pad2 ss ++
        ([sg] ++ pad2 oh ++ [apos] ++ pad2 om ++ [apos])).drop
          ((pad4 y ++ pad2 mo ++ pad2 dy ++ pad2 hh ++ pad2 mi ++ pad2 ss ++
            ([sg] ++ pad2 oh ++ [apos] ++ pad2 om ++ [apos])).length - zPat.length) =
        [sg, Nat.digitChar (oh / 10), Nat.digitChar (oh % 10), apos,
         Nat.digitChar (om / 10), Nat.digitChar (om % 10), apos] := rfl
    rw [hd] at hcontra
    simp only [zPat, List.cons.injEq] at hcontra
    exact hsgZ hcontra.1
  have hC3 : endsWithL (pad4 y ++ pad2 mo ++ pad2 dy ++ pad2 hh ++ pad2 mi ++ pad2 ss ++
      ([sg] ++ pad2 oh ++ [apos] ++ pad2 om ++ [apos])) ['Z'] = false := by
    unfold endsWithL
    apply decide_eq_false
    intro hcontra
    have hd : (pad4 y ++ pad2 mo ++ pad2 dy ++ pad2 hh ++ pad2 mi ++ pad2 ss ++
        ([sg] ++ pad2 oh ++ [apos] ++ pad2 om ++ [apos])).drop
          ((pad4 y ++ pad2 mo ++ pad2 dy ++ pad2 hh ++ pad2 mi ++ pad2 ss ++
            ([sg] ++ pad2 oh ++ [apos] ++ pad2 om ++ [apos])).length - ['Z'].length) =
        [apos] := rfl
    rw [hd] at hcontra
    exact absurd hcontra (by decide)
  have hfil : (pad4 y ++ pad2 mo ++ pad2 dy ++ pad2 hh ++ pad2 mi ++ pad2 ss ++
      ([sg] ++ pad2 oh ++ [apos] ++ pad2 om ++ [apos])).filter
        (fun c => decide (c ≠ apos)) =
      [Nat.digitChar (y / 1000), Nat.digitChar (y / 100 % 10),
       Nat.digitChar (y / 10 % 10), Nat.digitChar (y % 10),
       Nat.digitChar (mo / 10), Nat.digitChar (mo % 10),
       Nat.digitChar (dy / 10), Nat.digitChar (dy % 10),
       Nat.digitChar (hh / 10), Nat.digitChar (hh % 10),
       Nat.digitChar (mi / 10), Nat.digitChar (mi % 10),
       Nat.digitChar (ss / 10), Nat.digitChar (ss % 10), sg,
       Nat.digitChar (oh / 10), Nat.digitChar (oh % 10),
       Nat.digitChar (om / 10), Nat.digitChar (om % 10)] := by
    simp only [List.filter_append, filter_pad4 y hy2, filter_pad2 mo hmo99,
               filter_pad2 dy hdy99, filter_pad2 hh hhh99, filter_pad2 mi hmi99,
               filter_pad2 ss hss99, filter_pad2 oh hoh99, filter_pad2 om hom99]
    simp [List.filter_cons, hsgA, hap, hsgne, pad4, pad2]
  have hall : ([Nat.digitChar (y / 1000), Nat.digitChar (y / 100 % 10),
       Nat.digitChar (y / 10 % 10), Nat.digitChar (y % 10),
       Nat.digitChar (mo / 10), Nat.digitChar (mo % 10),
       Nat.digitChar (dy / 10), Nat.digitChar (dy % 10),
       Nat.digitChar (hh / 10), Nat.digitChar (hh % 10),
       Nat.digitChar (mi / 10), Nat.digitChar (mi % 10),
       Nat.digitChar (ss / 10), Nat.digitChar (ss % 10),
       Nat.digitChar (oh / 10), Nat.digitChar (oh % 10),
       Nat.digitChar (om / 10), Nat.digitChar (om % 10)].all isDig) = true := by
    simp only [List.all_cons, List.all_nil, Bool.and_eq_true, Bool.and_true]
    exact ⟨isDig_digitChar _ (by omega), isDig_digitChar _ (by omega),
           isDig_digitChar _ (by omega), isDig_digitChar _ (by omega),
           isDig_digitChar _ (by omega), isDig_digitChar _ (by omega),
           isDig_digitChar _ (by omega), isDig_digitChar _ (by omega),
           isDig_digitChar _ (by omega), isDig_digitChar _ (by omega),
           isDig_digitChar _ (by omega), isDig_digitChar _ (by omega),
           isDig_digitChar _ (by omega), isDig_digitChar _ (by omega),
           isDig_digitChar _ (by omega), isDig_digitChar _ (by omega),
           isDig_digitChar _ (by omega), isDig_digitChar _ (by omega)⟩
  have e1 : d2n (Nat.digitChar (y / 1000)) = y / 1000 := d2n_digitChar _ (by omega)
  have e2 : d2n (Nat.digitChar (y / 100 % 10)) = y / 100 % 10 := d2n_digitChar _ (by omega)
  have e3 : d2n (Nat.digitChar (y / 10 % 10)) = y / 10 % 10 := d2n_digitChar _ (by omega)
  have e4 : d2n (Nat.digitChar (y % 10)) = y % 10 := d2n_digitChar _ (by omega)
  have e5 : d2n (Nat.digitChar (mo / 10)) = mo / 10 := d2n_digitChar _ (by omega)
  have e6 : d2n (Nat.digitChar (mo % 10)) = mo % 10 := d2n_digitChar _ (by omega)
  have e7 : d2n (Nat.digitChar (dy / 10)) = dy / 10 := d2n_digitChar _ (by omega)
  have e8 : d2n (Nat.digitChar (dy % 10)) = dy % 10 := d2n_digitChar _ (by omega)
  have e9 : d2n (Nat.digitChar (hh / 10)) = hh / 10 := d2n_digitChar _ (by omega)
  have e10 : d2n (Nat.digitChar (hh % 10)) = hh % 10 := d2n_digitChar _ (by omega)
  have e11 : d2n (Nat.digitChar (mi / 10)) = mi / 10 := d2n_digitChar _ (by omega)
  have e12 : d2n (Nat.digitChar (mi % 10)) = mi % 10 := d2n_digitChar _ (by omega)
  have e13 : d2n (Nat.digitChar (ss / 10)) = ss / 10 := d2n_digitChar _ (by omega)
  have e14 : d2n (Nat.digitChar (ss % 10)) = ss % 10 := d2n_digitChar _ (by omega)
  have e15 : d2n (Nat.digitChar (oh / 10)) = oh / 10 := d2n_digitChar _ (by omega)
  have e16 : d2n (Nat.digitChar (oh % 10)) = oh % 10 := d2n_digitChar _ (by omega)
  have e17 : d2n (Nat.digitChar (om / 10)) = om / 10 := d2n_digitChar _ (by omega)
  have e18 : d2n (Nat.digitChar (om % 10)) = om % 10 := d2n_digitChar _ (by omega)
  have r1 : ((y / 1000 * 10 + y / 100 % 10) * 10 + y / 10 % 10) * 10 + y % 10 = y := by
    omega
  have r2 : mo / 10 * 10 + mo % 10 = mo := by omega
  have r3 : dy / 10 * 10 + dy % 10 = dy := by omega
  have r4 : hh / 10 * 10 + hh % 10 = hh := by omega
  have r5 : mi / 10 * 10 + mi % 10 = mi := by omega
  have r6 : ss / 10 * 10 + ss % 10 = ss := by omega
  have r7 : (oh / 10 * 10 + oh % 10) * 60 + (om / 10 * 10 + om % 10) = oh * 60 + om := by
    omega
  simp only [decodeChars]
  rw [if_neg hC1, hC2, hC3]
  simp only [Bool.false_eq_true, if_false]
  rw [hfil]
  simp only [parseZ]
  rw [if_pos ⟨hall, hsg⟩]
  simp only [e1, e2, e3, e4, e5, e6, e7, e8, e9, e10, e11, e12, e13, e14, e15, e16,
             e17, e18, r1, r2, r3, r4, r5, r6, r7]
  rw [if_pos ⟨hvKeep, hoff⟩]

/-- C2: for every valid timestamp in the four-digit-year range carrying a
zone offset, decoding the encoded pdfmark date returns the same timestamp
with the same offset; for a zone-naive timestamp the decode yields the same
fields with a zero offset, because the encoder writes the zone as `+00'00'`. -/
theorem c2_date_roundtrip (d : PDT) (hv : ValidPDT d) (hyr : 1000 ≤ d.year) :
    decode_pdf_date (encode_pdf_date d) =
      some (match d.tz with
            | some _ => d
            | none => { d with tz := some 0 }) := by
  obtain ⟨y, mo, dy, hh, mi, ss, tz⟩ := d
  obtain ⟨hdt, htz⟩ := hv
  have hyr' : 1000 ≤ y := hyr
  show decodeChars (encodeChars ⟨y, mo, dy, hh, mi, ss, tz⟩) = _
  cases tz with
  | none =>
    have hE : encodeChars ⟨y, mo, dy, hh, mi, ss, none⟩ =
        pad4 y ++ pad2 mo ++ pad2 dy ++ pad2 hh ++ pad2 mi ++ pad2 ss ++
          ([('+' : Char)] ++ pad2 0 ++ [apos] ++ pad2 0 ++ [apos]) := rfl
    rw [hE, decode_encode_aux y mo dy hh mi ss 0 0 '+' hyr' hdt (by omega) (by omega)
        (by omega) (Or.inl rfl)]
    simp
  | some off =>
    have ha : off.natAbs < 1440 := htz
    have hnum : off.natAbs / 60 * 60 + off.natAbs % 60 = off.natAbs := by omega
    rcases lt_or_le off 0 with hneg | hpos
    · have hE : encodeChars ⟨y, mo, dy, hh, mi, ss, some off⟩ =
          pad4 y ++ pad2 mo ++ pad2 dy ++ pad2 hh ++ pad2 mi ++ pad2 ss ++
            ([('-' : Char)] ++ pad2 (off.natAbs / 60) ++ [apos] ++
              pad2 (off.natAbs % 60) ++ [apos]) := by
        simp only [encodeChars]
        rw [if_pos hneg]
      rw [hE, decode_encode_aux y mo dy hh mi ss (off.natAbs / 60) (off.natAbs % 60)
          '-' hyr' hdt (by omega) (by omega) (by omega) (Or.inr rfl)]
      simp [hnum, abs_of_neg hneg]
    · have hE : encodeChars ⟨y, mo, dy, hh, mi, ss, some off⟩ =
          pad4 y ++ pad2 mo ++ pad2 dy ++ pad2 hh ++ pad2 mi ++ pad2 ss ++
            ([('+' : Char)] ++ pad2 (off.natAbs / 60) ++ [apos] ++
              pad2 (off.natAbs % 60) ++ [apos]) := by
        simp only [encodeChars]
        rw [if_neg (by omega)]
      rw [hE, decode_encode_aux y mo dy hh mi ss (off.natAbs / 60) (off.natAbs % 60)
          '+' hyr' hdt (by omega) (by omega) (by omega) (Or.inl rfl)]
      simp [hnum, abs_of_nonneg hpos]

/-- C2 witness: the round trip at `2020-01-01 12:00:00` with offset -300
minutes and without a zone. -/
theorem c2_date_roundtrip_witness :
    ValidPDT ⟨2020, 1, 1, 12, 0, 0, some (-300)⟩ ∧
    decode_pdf_date (encode_pdf_date ⟨2020, 1, 1, 12, 0, 0, some (-300)⟩) =
      some ⟨2020, 1, 1, 12, 0, 0, some (-300)⟩ ∧
    decode_pdf_date (encode_pdf_date ⟨2020, 1, 1, 12, 0, 0, none⟩) =
      some ⟨2020, 1, 1, 12, 0, 0, some 0⟩ := by
  refine ⟨by decide, ?_, ?_⟩
  · exact c2_date_roundtrip ⟨2020, 1, 1, 12, 0, 0, some (-300)⟩ (by decide) (by decide)
  · exact c2_date_roundtrip ⟨2020, 1, 1, 12, 0, 0, none⟩ (by decide) (by decide)
